import Mathlib

/-!
Shallow embedding of the libClarisse utility library (libClarisse.py and
libClarisseGui.py) for verification. The host application's scripting API
("ix") is opaque to the library, so host state (namespace of items,
filesystem, attribute stores) is modelled explicitly and threaded through
the embedded functions. Python exceptions are modelled with an error type,
and Python string/path built-ins used by the library (str.replace,
str.split, str.lower, os.path.join, os.path.split, os.path.abspath,
os.path.normpath, int(), float() conversion checks) are embedded as
structurally recursive functions on character lists so that closed terms
evaluate in the kernel.
-/

/-- Python exception kinds raised by the library or by the Python built-ins
it invokes. -/
inductive PyErr where
  | typeError
  | valueError
  | ioError
  | assertionError
  | indexError
deriving DecidableEq, Repr

/-! ## Character-list models of the Python string built-ins -/

/-- If `pat` is a leading run of `s`, return the remainder of `s` after it. -/
def stripPre? : List Char → List Char → Option (List Char)
  | [], s => some s
  | _ :: _, [] => none
  | p :: ps, c :: cs => if p = c then stripPre? ps cs else none

/-- Does `pat` occur as a contiguous run anywhere in `s`?  Models Python
`pat in s` for the separators used by the library. -/
def containsSub (pat : List Char) : List Char → Bool
  | [] => (stripPre? pat []).isSome
  | c :: cs => (stripPre? pat (c :: cs)).isSome || containsSub pat cs

/-- Fuelled model of Python `s.replace(pat, rep)` for a non-empty `pat`:
replace non-overlapping occurrences left to right.  When the fuel runs out
the remaining characters are returned unchanged; fuel `s.length` always
suffices for a non-empty pattern. -/
def replaceCharsF : Nat → List Char → List Char → List Char → List Char
  | 0, _, _, s => s
  | fuel + 1, pat, rep, s =>
    match s with
    | [] => []
    | c :: cs =>
      match stripPre? pat (c :: cs) with
      | some rest => rep ++ replaceCharsF fuel pat rep rest
      | none => c :: replaceCharsF fuel pat rep cs

/-- Python `s.replace(pat, rep)` on strings (non-empty `pat`). -/
def pyReplace (s pat rep : String) : String :=
  String.mk (replaceCharsF s.data.length pat.data rep.data s.data)

/-- Python `s.split("/")` on character lists. -/
def splitSlash : List Char → List (List Char)
  | [] => [[]]
  | c :: cs =>
    match splitSlash cs with
    | [] => [[]]
    | g :: gs => if c = '/' then [] :: g :: gs else (c :: g) :: gs

/-- Python `s.split("/")` on strings. -/
def pySplitSlash (s : String) : List String :=
  (splitSlash s.data).map String.mk

/-- Python `sep.join(parts)`. -/
def joinSep : List String → String → String
  | [], _ => ""
  | [x], _ => x
  | x :: y :: xs, sep => x ++ sep ++ joinSep (y :: xs) sep

/-- Python `s.endswith(pat)`. -/
def pyEndsWith (s pat : String) : Bool :=
  (stripPre? pat.data.reverse s.data.reverse).isSome

/-- Python `s.lower()` (ASCII, as used by the library). -/
def pyLower (s : String) : String :=
  String.mk (s.data.map Char.toLower)

/-- Python `s.upper()` (ASCII, as used by the library). -/
def pyUpper (s : String) : String :=
  String.mk (s.data.map Char.toUpper)

/-! ## posixpath models: join, split, normpath, abspath -/

/-- Two-argument `os.path.join` (posix): an absolute second part replaces
the first; otherwise the parts are glued with a single slash. -/
def join2Chars (a b : List Char) : List Char :=
  if b.head? = some '/' then b
  else if a = [] ∨ a.getLast? = some '/' then a ++ b
  else a ++ '/' :: b

/-- `os.path.join(a, b)` on strings. -/
def posix_join (a b : String) : String :=
  String.mk (join2Chars a.data b.data)

/-- Number of initial slashes normpath preserves: 2 for a path starting with
exactly two slashes, 1 for any other absolute path, 0 otherwise. -/
def iniSlashes (cs : List Char) : Nat :=
  if cs.head? = some '/' then
    if cs.take 3 = ['/', '/', '/'] then 1
    else if cs.take 2 = ['/', '/'] then 2
    else 1
  else 0

/-- The component-folding step of posix `normpath`: drop empty and `.`
components, fold `..` against the collected components. -/
def normStep (ini : Nat) (acc : List (List Char)) (comp : List Char) :
    List (List Char) :=
  if comp = [] ∨ comp = ['.'] then acc
  else if comp ≠ ['.', '.'] ∨ (ini = 0 ∧ acc = []) ∨
      (acc ≠ [] ∧ acc.getLast? = some ['.', '.']) then acc ++ [comp]
  else if acc ≠ [] then acc.dropLast
  else acc

/-- Interleave `/` between components. -/
def joinSlash : List (List Char) → List Char
  | [] => []
  | [x] => x
  | x :: y :: xs => x ++ '/' :: joinSlash (y :: xs)

/-- posix `os.path.normpath` on character lists. -/
def normpathChars (cs : List Char) : List Char :=
  if cs = [] then ['.']
  else
    let ini := iniSlashes cs
    let comps := splitSlash cs
    let newComps := comps.foldl (normStep ini) []
    let r := List.replicate ini '/' ++ joinSlash newComps
    if r = [] then ['.'] else r

/-- posix `os.path.normpath` on strings. -/
def posix_normpath (s : String) : String :=
  String.mk (normpathChars s.data)

/-- Is the path absolute (starts with a slash)? -/
def isAbsolute (s : String) : Bool :=
  s.data.head? = some '/'

/-- posix `os.path.abspath`, with the process working directory `cwd` made
an explicit argument: a relative path is joined onto `cwd`, then the result
is normalized. -/
def posix_abspath (cwd s : String) : String :=
  if isAbsolute s then posix_normpath s
  else posix_normpath (String.mk (join2Chars cwd.data s.data))

/-- posix `os.path.split`: split off everything after the last slash; the
head keeps no trailing slashes unless it consists only of slashes. -/
def os_path_split (p : String) : String × String :=
  let cs := p.data
  let i := cs.length - (cs.reverse.takeWhile (fun c => c ≠ '/')).length
  let head := cs.take i
  let tail := cs.drop i
  let head := if head ≠ [] ∧ head.any (fun c => c ≠ '/') then
      (head.reverse.dropWhile (fun c => c = '/')).reverse
    else head
  (String.mk head, String.mk tail)

/-! ## libClarisse.pdir_to_path -/

/-- Embedding of `libClarisse.pdir_to_path(path, project_p)`.  The process
working directory `cwd` (used by `os.path.abspath`) is threaded explicitly.
If the project path ends in `.project` its final component is dropped; then
every occurrence of `$PDIR` in `path` is replaced by the project directory
and the result is made absolute. -/
def pdir_to_path (cwd path project_p : String) : String :=
  let project_p :=
    if pyEndsWith project_p ".project" then (os_path_split project_p).1
    else project_p
  let path := pyReplace path "$PDIR" project_p
  posix_abspath cwd path

/-- The specification's description of `pdir_to_path`, written from its
words: `os.path.abspath` of the string obtained by replacing every
occurrence of `$PDIR` in `path` with the project directory, the project
directory being `project_p` with its final component removed when
`project_p` ends with `.project`, and `project_p` itself otherwise. -/
def pdir_to_path_spec (cwd path project_p : String) : String :=
  posix_abspath cwd
    (pyReplace path "$PDIR"
      (if pyEndsWith project_p ".project" then (os_path_split project_p).1
       else project_p))

/-- C4: pdir_to_path returns the absolute form of the string obtained by
substituting the project directory for every occurrence of `$PDIR`, the
project directory being `project_p` stripped of its final component exactly
when it ends with `.project`. -/
theorem C4_pdir_to_path_matches_spec (cwd path project_p : String) :
    pdir_to_path cwd path project_p = pdir_to_path_spec cwd path project_p := by
  unfold pdir_to_path pdir_to_path_spec
  split <;> rfl

theorem replaceCharsF_of_not_contains (pat rep : List Char) :
    ∀ (fuel : Nat) (s : List Char), containsSub pat s = false →
      replaceCharsF fuel pat rep s = s := by
  intro fuel
  induction fuel with
  | zero => intro s _; rfl
  | succ n ih =>
    intro s h
    cases s with
    | nil => rfl
    | cons c cs =>
      simp only [containsSub, Bool.or_eq_false_iff] at h
      simp only [replaceCharsF]
      rw [show stripPre? pat (c :: cs) = none from by
        cases hs : stripPre? pat (c :: cs) with
        | none => rfl
        | some r => rw [hs] at h; simp at h]
      rw [ih cs h.2]

theorem pyReplace_of_not_contains (s pat rep : String)
    (h : containsSub pat.data s.data = false) : pyReplace s pat rep = s := by
  unfold pyReplace
  rw [replaceCharsF_of_not_contains pat.data rep.data s.data.length s.data h]

theorem iniSlashes_pos (cs : List Char) (h : cs.head? = some '/') :
    1 ≤ iniSlashes cs := by
  unfold iniSlashes
  rw [h, if_pos rfl]
  split
  · omega
  · split <;> omega

theorem normpathChars_abs (cs : List Char) (h : cs.head? = some '/') :
    (normpathChars cs).head? = some '/' := by
  have hne : cs ≠ [] := by
    intro hc
    rw [hc] at h
    simp at h
  have h1 : 1 ≤ iniSlashes cs := iniSlashes_pos cs h
  obtain ⟨k, hk⟩ : ∃ k, iniSlashes cs = k + 1 :=
    ⟨iniSlashes cs - 1, by omega⟩
  unfold normpathChars
  rw [if_neg hne]
  simp only [hk, List.replicate_succ, List.cons_append]
  split <;> simp_all

theorem join2Chars_abs (a b : List Char) (ha : a.head? = some '/')
    (hb : b.head? ≠ some '/') : (join2Chars a b).head? = some '/' := by
  unfold join2Chars
  rw [if_neg hb]
  have hane : a ≠ [] := by
    intro hc; rw [hc] at ha; simp at ha
  cases a with
  | nil => exact absurd rfl hane
  | cons x xs =>
    simp only [List.head?] at ha
    split <;> simp [ha]

theorem posix_abspath_abs (cwd s : String) (hcwd : isAbsolute cwd = true) :
    isAbsolute (posix_abspath cwd s) = true := by
  unfold posix_abspath
  by_cases hs : isAbsolute s = true
  · rw [if_pos hs]
    unfold isAbsolute at hs ⊢
    unfold posix_normpath
    simpa using normpathChars_abs s.data (by simpa using hs)
  · rw [if_neg hs]
    unfold isAbsolute at hcwd hs ⊢
    unfold posix_normpath
    have hj : (join2Chars cwd.data s.data).head? = some '/' :=
      join2Chars_abs cwd.data s.data (by simpa using hcwd)
        (by simpa using hs)
    simpa using normpathChars_abs _ hj

/-- C10: when `path` has no occurrence of `$PDIR`, pdir_to_path still does
not return it unchanged in general: the result is `os.path.abspath(path)`,
so (with an absolute working directory) a relative input comes back
absolute; the concrete relative path `x` is changed. -/
theorem C10_pdir_to_path_abspath_without_pdir (cwd path project_p : String)
    (h : containsSub "$PDIR".data path.data = false) :
    pdir_to_path cwd path project_p = posix_abspath cwd path ∧
      (isAbsolute cwd = true →
        isAbsolute (pdir_to_path cwd path project_p) = true) ∧
      pdir_to_path "/home" "x" "p" ≠ "x" := by
  have heq : pdir_to_path cwd path project_p = posix_abspath cwd path := by
    have hz : pdir_to_path cwd path project_p =
        posix_abspath cwd (pyReplace path "$PDIR"
          (if pyEndsWith project_p ".project" = true then
            (os_path_split project_p).1 else project_p)) := rfl
    rw [hz, pyReplace_of_not_contains path "$PDIR" _ h]
  refine ⟨heq, ?_, by decide⟩
  intro hcwd
  rw [heq]
  exact posix_abspath_abs cwd path hcwd

theorem C10_witness :
    containsSub "$PDIR".data "x".data = false ∧
      pdir_to_path "/home" "x" "p" = posix_abspath "/home" "x" := by
  refine ⟨by decide, ?_⟩
  exact (C10_pdir_to_path_abspath_without_pdir "/home" "x" "p"
    (by decide)).1

/-! ## libClarisse.get_reference_file_path -/

/-- Host-side view of a context as `get_reference_file_path` uses it:
whether `is_reference()` holds, and the result of
`get_attribute(name).get_string()` for each attribute name. -/
structure RefContext where
  is_reference : Bool
  attr_string : String → String

/-- Embedding of `libClarisse.get_reference_file_path(context)`: the string
value of the `filename` attribute for a reference context, a `TypeError`
otherwise. -/
def get_reference_file_path (context : RefContext) : Except PyErr String :=
  if context.is_reference then Except.ok (context.attr_string "filename")
  else Except.error PyErr.typeError

/-- C5: get_reference_file_path raises TypeError exactly on non-reference
contexts, and on a reference context it returns the string value of the
context's `filename` attribute without raising. -/
theorem C5_get_reference_file_path (c : RefContext) :
    (get_reference_file_path c = Except.error PyErr.typeError ↔
      c.is_reference = false) ∧
    (c.is_reference = true →
      get_reference_file_path c = Except.ok (c.attr_string "filename")) := by
  cases hb : c.is_reference <;>
    simp [get_reference_file_path, hb]

theorem C5_witness :
    get_reference_file_path ⟨true, fun _ => "/tmp/a.project"⟩ =
      Except.ok "/tmp/a.project" :=
  (C5_get_reference_file_path ⟨true, fun _ => "/tmp/a.project"⟩).2 rfl

/-! ## libClarisse.export_context_with_deps -/

/-- Host-side view of a context item: `get_name()`. -/
structure IxContext where
  name : String

/-- The filesystem responses the library consults: `os.path.exists` and
`os.path.isdir`. -/
structure FS where
  pathExists : String → Bool
  isdir : String → Bool

/-- A call to `ix.export_context_as_project_with_dependencies`, recorded as
the exported context's name and the destination file path. -/
structure ExportCall where
  ctxName : String
  path : String
deriving DecidableEq, Repr

/-- Embedding of `libClarisse.export_context_with_deps(context, dest,
overwrite)`.  The two `assert` statements become `AssertionError` results;
the returned list records the host export calls performed. -/
def export_context_with_deps (fs : FS) (context : IxContext) (dest : String)
    (overwrite : Bool) : Except PyErr String × List ExportCall :=
  if fs.pathExists dest = false then (Except.error PyErr.assertionError, [])
  else if fs.isdir dest = false then (Except.error PyErr.assertionError, [])
  else
    let file_p := posix_join dest (context.name ++ ".project")
    if fs.pathExists file_p ∧ overwrite = false then
      (Except.error PyErr.ioError, [])
    else
      let file_p := posix_join dest (context.name ++ ".project")
      (Except.ok file_p, [⟨context.name, file_p⟩])

/-- C2: with an existing directory `dest`, if `<context name>.project`
already exists there and overwrite is false an IOError is raised and no
export call is made; otherwise exactly one export call writes that file and
the function returns `dest` joined with `<context name>.project`. -/
theorem C2_export_context_with_deps (fs : FS) (context : IxContext)
    (dest : String) (overwrite : Bool) (h1 : fs.pathExists dest = true)
    (h2 : fs.isdir dest = true) :
    (fs.pathExists (posix_join dest (context.name ++ ".project")) = true →
      overwrite = false →
      export_context_with_deps fs context dest overwrite =
        (Except.error PyErr.ioError, [])) ∧
    (fs.pathExists (posix_join dest (context.name ++ ".project")) = false ∨
        overwrite = true →
      export_context_with_deps fs context dest overwrite =
        (Except.ok (posix_join dest (context.name ++ ".project")),
          [⟨context.name, posix_join dest (context.name ++ ".project")⟩])) := by
  constructor
  · intro hf ho
    simp [export_context_with_deps, h1, h2, hf, ho]
  · intro hd
    rcases hd with hf | ho
    · simp [export_context_with_deps, h1, h2, hf]
    · simp [export_context_with_deps, h1, h2, ho]

theorem C2_witness :
    export_context_with_deps
      ⟨fun s => s == "/exp", fun s => s == "/exp"⟩ ⟨"ctx"⟩ "/exp" false =
      (Except.ok "/exp/ctx.project", [⟨"ctx", "/exp/ctx.project"⟩]) :=
  (C2_export_context_with_deps
    ⟨fun s => s == "/exp", fun s => s == "/exp"⟩ ⟨"ctx"⟩ "/exp" false
    rfl rfl).2 (Or.inl rfl)

/-- C7 counterexample: when `dest` does not exist the explicit parameter
check raises an AssertionError, which is neither a TypeError nor an
IOError, so the claim that a type or IO error is raised fails; no export
call is made. -/
theorem C7_counterexample :
    export_context_with_deps
      ⟨fun _ => false, fun _ => false⟩ ⟨"ctx"⟩ "/missing" true =
      (Except.error PyErr.assertionError, []) ∧
    PyErr.assertionError ≠ PyErr.typeError ∧
    PyErr.assertionError ≠ PyErr.ioError := by
  refine ⟨rfl, by decide, by decide⟩

/-- C7 (amended): when `dest` does not exist on the filesystem or is not a
directory, export_context_with_deps raises an AssertionError from an
explicit parameter check before any host export call is made. -/
theorem C7_assert_before_export (fs : FS) (context : IxContext)
    (dest : String) (overwrite : Bool)
    (h : fs.pathExists dest = false ∨ fs.isdir dest = false) :
    export_context_with_deps fs context dest overwrite =
      (Except.error PyErr.assertionError, []) := by
  rcases h with h | h
  · simp [export_context_with_deps, h]
  · cases he : fs.pathExists dest <;>
      simp [export_context_with_deps, he, h]

theorem C7_witness :
    export_context_with_deps
      ⟨fun s => s == "/f", fun _ => false⟩ ⟨"c"⟩ "/f" false =
      (Except.error PyErr.assertionError, []) :=
  C7_assert_before_export ⟨fun s => s == "/f", fun _ => false⟩ ⟨"c"⟩ "/f"
    false (Or.inr rfl)

/-! ## libClarisse.contexts_are_atomic -/

/-- Host-side view of a list element as `contexts_are_atomic` uses it:
whether `is_context()` holds, `get_name()`, and the two item sets that
`get_external_dependencies` fills in for it. -/
structure CtxItem where
  is_context : Bool
  name : String
  ext_refs : List String
  ext_sources : List String

/-- Embedding of `libClarisse.get_external_dependencies(context)`: the pair
of external references and external sources the host reports. -/
def get_external_dependencies (context : CtxItem) :
    List String × List String :=
  (context.ext_refs, context.ext_sources)

/-- Embedding of `libClarisse.contexts_are_atomic(contexts)` (after the
scalar-to-list wrapping): non-contexts are skipped; the first context
returns False when it has external dependencies and True otherwise, ending
the loop; an exhausted loop returns True. -/
def contexts_are_atomic : List CtxItem → Bool
  | [] => true
  | context :: rest =>
    if context.is_context = false then contexts_are_atomic rest
    else if (get_external_dependencies context).1.length > 0 ∨
        (get_external_dependencies context).2.length > 0 then false
    else true

/-- C9: contexts_are_atomic is decided by the first context in the list:
with only non-contexts before it, the result is exactly "that context has
no external references and no external sources", independently of every
later element; a list with no contexts at all (in particular the empty
list) yields True. -/
theorem C9_contexts_are_atomic :
    (∀ (pre : List CtxItem) (c : CtxItem) (post : List CtxItem),
      (∀ x ∈ pre, x.is_context = false) → c.is_context = true →
      contexts_are_atomic (pre ++ c :: post) =
        (c.ext_refs.isEmpty && c.ext_sources.isEmpty)) ∧
    (∀ cs : List CtxItem, (∀ x ∈ cs, x.is_context = false) →
      contexts_are_atomic cs = true) := by
  constructor
  · intro pre c post hpre hc
    induction pre with
    | nil =>
      simp only [List.nil_append, contexts_are_atomic, hc]
      cases hr : c.ext_refs <;> cases hs : c.ext_sources <;>
        simp [get_external_dependencies, hr, hs]
    | cons p ps ih =>
      have hp : p.is_context = false := hpre p (by simp)
      simp only [List.cons_append, contexts_are_atomic, hp, if_pos]
      exact ih fun x hx => hpre x (by simp [hx])
  · intro cs h
    induction cs with
    | nil => rfl
    | cons c rest ih =>
      have hc : c.is_context = false := h c (by simp)
      simp only [contexts_are_atomic, hc, if_pos rfl]
      exact ih fun x hx => h x (by simp [hx])

theorem C9_witness :
    contexts_are_atomic
      [⟨false, "obj", ["r"], []⟩, ⟨true, "ctx", ["dep"], []⟩,
        ⟨true, "later", [], []⟩] = false := by
  have h := C9_contexts_are_atomic.1 [⟨false, "obj", ["r"], []⟩]
    ⟨true, "ctx", ["dep"], []⟩ [⟨true, "later", [], []⟩]
    (by intro x hx; simp at hx; rw [hx]) rfl
  simpa using h

/-! ## libClarisse.create_context -/

/-- The host's hierarchical namespace: the set of item URLs that exist,
as consulted by `ix.item_exists` and extended by `ix.create_context`. -/
structure Host where
  ns : List String

/-- Model of `ix.item_exists(url)`: the item (identified by its URL) when
it exists, a falsy `None` otherwise. -/
def item_exists (h : Host) (url : String) : Option String :=
  if url ∈ h.ns then some url else none

/-- Model of `ix.create_context(url)`: the URL is added to the namespace
and the created context is returned. -/
def ix_create_context (h : Host) (url : String) : Host × String :=
  ({ ns := h.ns ++ [url] }, url)

/-- The loop of `libClarisse.create_context`: walk the path tokens, extend
the URL one token at a time, create each URL that does not yet exist.
Returns the final host state, the list of `ix.create_context` calls made
(in order), and the context variable's final value. -/
def create_context_go :
    Host → List String → String → Option String → List String →
      Host × List String × Option String
  | h, [], _, ctx, calls => (h, calls, ctx)
  | h, t :: ts, url, _, calls =>
    let url1 := url ++ "/" ++ t
    match item_exists h url1 with
    | some c => create_context_go h ts url1 (some c) calls
    | none =>
      let hc := ix_create_context h url1
      create_context_go hc.1 ts url1 (some hc.2) (calls ++ [url1])

/-- Embedding of `libClarisse.create_context(context_url)`: replace
`project://` with `/`, split on slashes, then create the missing URLs
root-to-leaf. -/
def create_context (h : Host) (context_url : String) :
    Host × List String × Option String :=
  let tokens := pySplitSlash (pyReplace context_url "project://" "/")
  create_context_go h tokens "project:/" (item_exists h "project:/") []

/-- The URL reached after consuming every remaining token. -/
def urlAfter (url : String) : List String → String
  | [] => url
  | t :: ts => urlAfter (url ++ "/" ++ t) ts

/-- The URLs visited by the loop, one per token: these are exactly the
URLs of the successive path prefixes. -/
def stepUrls (url : String) : List String → List String
  | [] => []
  | t :: ts => (url ++ "/" ++ t) :: stepUrls (url ++ "/" ++ t) ts

theorem str_append_data (a b : String) :
    (a ++ b).data = a.data ++ b.data := rfl

theorem splitSlash_ne_nil (cs : List Char) : splitSlash cs ≠ [] := by
  cases cs with
  | nil => simp [splitSlash]
  | cons c cs =>
    simp only [splitSlash]
    rcases h : splitSlash cs with _ | ⟨g, gs⟩
    · simp
    · split
      · simp
      · split <;> simp

theorem stepUrl_len (url t : String) :
    url.data.length < (url ++ "/" ++ t).data.length := by
  have h : (url ++ "/" ++ t).data = (url.data ++ ['/']) ++ t.data := rfl
  rw [h]
  simp only [List.length_append, List.length_cons, List.length_nil]
  omega

theorem create_context_go_spec (h0 : List String) :
    ∀ (ts : List String) (url : String) (extra : List String)
      (ctx : Option String) (calls : List String),
      (∀ s ∈ extra, s.data.length ≤ url.data.length) →
      create_context_go ⟨h0 ++ extra⟩ ts url ctx calls =
        (⟨h0 ++ (extra ++ (stepUrls url ts).filter
            (fun u => decide (u ∉ h0)))⟩,
          calls ++ (stepUrls url ts).filter (fun u => decide (u ∉ h0)),
          if ts.isEmpty then ctx else some (urlAfter url ts)) := by
  intro ts
  induction ts with
  | nil =>
    intro url extra ctx calls _
    simp [create_context_go, stepUrls]
  | cons t ts ih =>
    intro url extra ctx calls hlen
    have hnotex : (url ++ "/" ++ t) ∉ extra := by
      intro hmem
      have := hlen _ hmem
      have := stepUrl_len url t
      omega
    have hiff : ((url ++ "/" ++ t) ∈ h0 ++ extra) ↔
        ((url ++ "/" ++ t) ∈ h0) := by
      simp [List.mem_append, hnotex]
    simp only [create_context_go]
    by_cases hmem : (url ++ "/" ++ t) ∈ h0
    · have hex : item_exists ⟨h0 ++ extra⟩ (url ++ "/" ++ t) =
          some (url ++ "/" ++ t) := by
        simp [item_exists, hiff.mpr hmem]
      rw [hex]
      show create_context_go ⟨h0 ++ extra⟩ ts (url ++ "/" ++ t)
        (some (url ++ "/" ++ t)) calls = _
      have hrec := ih (url ++ "/" ++ t) extra (some (url ++ "/" ++ t)) calls
        (fun s hs => le_of_lt (lt_of_le_of_lt (hlen s hs) (stepUrl_len url t)))
      rw [hrec]
      have hfil : (stepUrls url (t :: ts)).filter
          (fun u => decide (u ∉ h0)) =
          (stepUrls (url ++ "/" ++ t) ts).filter
            (fun u => decide (u ∉ h0)) := by
        simp [stepUrls, hmem]
      rw [hfil]
      cases ts <;> simp [urlAfter]
    · have hex : item_exists ⟨h0 ++ extra⟩ (url ++ "/" ++ t) = none := by
        simp only [item_exists, hiff]
        simp [hmem]
      rw [hex]
      show create_context_go
        (ix_create_context ⟨h0 ++ extra⟩ (url ++ "/" ++ t)).1 ts
        (url ++ "/" ++ t)
        (some (ix_create_context ⟨h0 ++ extra⟩ (url ++ "/" ++ t)).2)
        (calls ++ [url ++ "/" ++ t]) = _
      have hfst : (ix_create_context ⟨h0 ++ extra⟩ (url ++ "/" ++ t)).1 =
          ⟨h0 ++ (extra ++ [url ++ "/" ++ t])⟩ := by
        simp [ix_create_context]
      have hsnd : (ix_create_context ⟨h0 ++ extra⟩ (url ++ "/" ++ t)).2 =
          url ++ "/" ++ t := rfl
      rw [hfst, hsnd]
      have hrec := ih (url ++ "/" ++ t) (extra ++ [url ++ "/" ++ t])
        (some (url ++ "/" ++ t)) (calls ++ [url ++ "/" ++ t])
        (by
          intro s hs
          rcases List.mem_append.mp hs with hs | hs
          · exact le_of_lt (lt_of_le_of_lt (hlen s hs) (stepUrl_len url t))
          · simp at hs
            rw [hs])
      rw [hrec]
      have hfil : (stepUrls url (t :: ts)).filter
          (fun u => decide (u ∉ h0)) =
          (url ++ "/" ++ t) :: (stepUrls (url ++ "/" ++ t) ts).filter
            (fun u => decide (u ∉ h0)) := by
        simp [stepUrls, hmem]
      rw [hfil]
      cases ts <;> simp [urlAfter]

/-- C3: create_context visits the URL of every prefix of the slash-split
path; after the call each of those URLs exists in the host namespace; the
`ix.create_context` calls are exactly the visited URLs missing from the
initial namespace, in root-to-leaf order (existing ones are untouched and
the namespace only grows by the created URLs); and the function returns
the context at the full path. -/
theorem C3_create_context (h : Host) (context_url : String) :
    (create_context h context_url).2.1 =
      (stepUrls "project:/"
          (pySplitSlash (pyReplace context_url "project://" "/"))).filter
        (fun u => decide (u ∉ h.ns)) ∧
    (create_context h context_url).1.ns =
      h.ns ++ (create_context h context_url).2.1 ∧
    (∀ u ∈ stepUrls "project:/"
        (pySplitSlash (pyReplace context_url "project://" "/")),
      u ∈ (create_context h context_url).1.ns) ∧
    (create_context h context_url).2.2 =
      some (urlAfter "project:/"
        (pySplitSlash (pyReplace context_url "project://" "/"))) := by
  have hspec := create_context_go_spec h.ns
    (pySplitSlash (pyReplace context_url "project://" "/")) "project:/"
    [] (item_exists h "project:/") [] (by simp)
  have hne : pySplitSlash (pyReplace context_url "project://" "/") ≠ [] := by
    unfold pySplitSlash
    simp [splitSlash_ne_nil]
  have hh : ({ ns := h.ns ++ [] } : Host) = h := by
    rw [Host.mk.injEq]
    simp
  rw [hh] at hspec
  have hrw : create_context h context_url =
      (⟨h.ns ++ ([] ++ (stepUrls "project:/"
          (pySplitSlash (pyReplace context_url "project://" "/"))).filter
          (fun u => decide (u ∉ h.ns)))⟩,
        [] ++ (stepUrls "project:/"
          (pySplitSlash (pyReplace context_url "project://" "/"))).filter
          (fun u => decide (u ∉ h.ns)),
        if (pySplitSlash (pyReplace context_url "project://" "/")).isEmpty
          then item_exists h "project:/"
          else some (urlAfter "project:/"
            (pySplitSlash (pyReplace context_url "project://" "/")))) := by
    unfold create_context
    exact hspec
  rw [hrw]
  refine ⟨by simp, by simp, ?_, ?_⟩
  · intro u hu
    simp only [List.nil_append]
    by_cases hm : u ∈ h.ns
    · simp [hm]
    · simp only [List.mem_append]
      right
      rw [List.mem_filter]
      exact ⟨hu, by simp [hm]⟩
  · simp only []
    rw [if_neg (by simpa [List.isEmpty_iff] using hne)]

theorem C3_witness :
    (create_context ⟨["project://a"]⟩ "a/b").2.1 = ["project://a/b"] ∧
    (create_context ⟨["project://a"]⟩ "a/b").2.2 = some "project://a/b" := by
  have h := C3_create_context ⟨["project://a"]⟩ "a/b"
  exact ⟨h.1.trans (by decide), h.2.2.2.trans (by decide)⟩

/-! ## libClarisse.set_custom_attr -/

/-- Python values as passed for the `value` parameter: booleans, integers,
strings, and lists (used for the multi-component color types). -/
inductive PyVal where
  | VBool (b : Bool)
  | VInt (n : Int)
  | VStr (s : String)
  | VList (xs : List PyVal)

mutual

/-- Python `repr` of a value, as it appears inside `str` of a list. -/
def pyRepr : PyVal → String
  | .VBool b => cond b "True" "False"
  | .VInt n => toString n
  | .VStr s => "\x27" ++ s ++ "\x27"
  | .VList xs => "[" ++ pyReprList xs ++ "]"

/-- The comma-separated element text of Python `repr` of a list. -/
def pyReprList : List PyVal → String
  | [] => ""
  | [x] => pyRepr x
  | x :: y :: xs => pyRepr x ++ ", " ++ pyReprList (y :: xs)

end

/-- Python `str(value)`. -/
def pyStr : PyVal → String
  | .VBool b => cond b "True" "False"
  | .VInt n => toString n
  | .VStr s => s
  | .VList xs => "[" ++ pyReprList xs ++ "]"

/-- Strip leading and trailing whitespace (Python `str.strip`, as done by
`int()` and `float()`). -/
def trimChars (cs : List Char) : List Char :=
  ((cs.dropWhile Char.isWhitespace).reverse.dropWhile Char.isWhitespace).reverse

/-- A non-empty all-decimal-digits run. -/
def decDigitsOk : List Char → Bool
  | [] => false
  | ds => ds.all Char.isDigit

/-- Numeric value of a decimal digit run. -/
def digitsVal (ds : List Char) : Nat :=
  ds.foldl (fun acc c => acc * 10 + (c.toNat - '0'.toNat)) 0

/-- Python `int(s)` on a string: optional sign around a non-empty digit
run after stripping whitespace; anything else raises ValueError. -/
def parsePyInt (s : String) : Except PyErr Int :=
  match trimChars s.data with
  | '-' :: ds =>
    if decDigitsOk ds then Except.ok (-(digitsVal ds : Int))
    else Except.error PyErr.valueError
  | '+' :: ds =>
    if decDigitsOk ds then Except.ok (digitsVal ds : Int)
    else Except.error PyErr.valueError
  | ds =>
    if decDigitsOk ds then Except.ok (digitsVal ds : Int)
    else Except.error PyErr.valueError

/-- Python `int(value)`: booleans and integers convert, strings are
parsed, lists raise TypeError. -/
def pyInt : PyVal → Except PyErr Int
  | .VBool b => Except.ok (cond b 1 0)
  | .VInt n => Except.ok n
  | .VStr s => parsePyInt s
  | .VList _ => Except.error PyErr.typeError

/-- Split a character run at the first exponent marker `e`/`E`. -/
def splitExpChar : List Char → List Char × Option (List Char)
  | [] => ([], none)
  | c :: cs =>
    if c = 'e' ∨ c = 'E' then ([], some cs)
    else
      let r := splitExpChar cs
      (c :: r.1, r.2)

/-- An optionally signed non-empty digit run (a float exponent). -/
def signedDigits : List Char → Bool
  | '+' :: ds => decDigitsOk ds
  | '-' :: ds => decDigitsOk ds
  | ds => decDigitsOk ds

/-- A float mantissa: digits, optionally with a decimal point, at least
one digit present. -/
def mantOk (cs : List Char) : Bool :=
  match cs.dropWhile Char.isDigit with
  | [] => decDigitsOk cs
  | '.' :: fr =>
    (decide (cs.takeWhile Char.isDigit ≠ []) || decide (fr ≠ [])) &&
      fr.all Char.isDigit
  | _ => false

/-- Does the string parse as a Python float literal (sign, mantissa,
optional exponent, surrounding whitespace)? -/
def floatLit (s : String) : Bool :=
  let cs := trimChars s.data
  let cs := match cs with
    | '+' :: r => r
    | '-' :: r => r
    | r => r
  let me := splitExpChar cs
  mantOk me.1 && (match me.2 with
    | none => true
    | some ex => signedDigits ex)

/-- Python `float(value)` as a conversion check: booleans, integers and
well-formed numeric strings convert, other strings raise ValueError and
lists raise TypeError.  Since the library performs no arithmetic on the
converted float, the float is represented by the value it came from. -/
def pyFloatChk : PyVal → Except PyErr PyVal
  | .VBool b => Except.ok (.VBool b)
  | .VInt n => Except.ok (.VInt n)
  | .VStr s =>
    if floatLit s then Except.ok (.VStr s) else Except.error PyErr.valueError
  | .VList _ => Except.error PyErr.typeError

/-- Python `value[i]`: list and string indexing with IndexError past the
end, TypeError on non-subscriptable values. -/
def pyIndex (v : PyVal) (i : Nat) : Except PyErr PyVal :=
  match v with
  | .VList xs =>
    match xs.get? i with
    | some x => Except.ok x
    | none => Except.error PyErr.indexError
  | .VStr s =>
    match s.data.get? i with
    | some c => Except.ok (.VStr (String.mk [c]))
    | none => Except.error PyErr.indexError
  | _ => Except.error PyErr.typeError

/-- `ix.api.OfAttr` attribute kinds used by set_custom_attr. -/
inductive AttrType where
  | TYPE_BOOL
  | TYPE_LONG
  | TYPE_DOUBLE
  | TYPE_STRING
  | TYPE_FILE
  | TYPE_REFERENCE
deriving DecidableEq, Repr

/-- `ix.api.OfAttr` visual hints used by set_custom_attr. -/
inductive VisualHint where
  | VISUAL_HINT_DEFAULT
  | VISUAL_HINT_PERCENTAGE
  | VISUAL_HINT_DISTANCE
  | VISUAL_HINT_ANGLE
  | VISUAL_HINT_SCALE
  | VISUAL_HINT_FRAME
  | VISUAL_HINT_SUBFRAME
  | VISUAL_HINT_L
  | VISUAL_HINT_LA
  | VISUAL_HINT_RGB
  | VISUAL_HINT_RGBA
  | VISUAL_HINT_FILENAME_OPEN
  | VISUAL_HINT_FILENAME_SAVE
  | VISUAL_HINT_PIXEL
  | VISUAL_HINT_SUBPIXEL
deriving DecidableEq, Repr

/-- `ix.api.OfAttr` container kinds used by set_custom_attr. -/
inductive Container where
  | CONTAINER_SINGLE
deriving DecidableEq, Repr

/-- The numeric argument handed to `set_long`: an `int()` result or, in
the `double` branch of the source, a `float()` result. -/
inductive PyNum where
  | ofInt (n : Int)
  | ofFloat (v : PyVal)

/-- A setter invocation performed on a host attribute object. -/
inductive SetterCall where
  | set_bool (b : Bool)
  | set_long (x : PyNum)
  | set_double (x : PyVal) (idx : Option Nat)
  | set_string (v : PyVal)
  | set_object (v : PyVal)
  | set_value_count (n : Nat)

/-- A host attribute as created by `item.add_attribute(...)` together with
the setter calls subsequently performed on it. -/
structure OfAttr where
  key : String
  attrType : AttrType
  container : Container
  hint : VisualHint
  sect : String
  calls : List SetterCall

/-- A host item as set_custom_attr sees it: its attribute list, which
`add_attribute` appends to. -/
structure IxItem where
  attrs : List OfAttr

/-- `item.add_attribute(key, ty, CONTAINER_SINGLE, hint, section)`: the
fresh attribute object, with no setter calls yet. -/
def mkAttr (key : String) (ty : AttrType) (hint : VisualHint)
    (sect : String) : OfAttr :=
  { key := key, attrType := ty, container := Container.CONTAINER_SINGLE,
    hint := hint, sect := sect, calls := [] }

/-- The mutation `add_attribute` performs on the item. -/
def pushAttr (item : IxItem) (a : OfAttr) : IxItem :=
  { item with attrs := item.attrs ++ [a] }

/-- Record one more setter call on an attribute object. -/
def withCall (a : OfAttr) (c : SetterCall) : OfAttr :=
  { a with calls := a.calls ++ [c] }

/-- The accepted spellings for a true boolean value, from the source. -/
def boolWords : List String := ["TRUE", "T", "YES", "Y", "1", "ON"]

/-- The `long`/`integer`/`frame` branch shape: create a TYPE_LONG
attribute, then `set_long(int(value))`; a conversion error propagates
after the attribute has been added. -/
def longBranch (item : IxItem) (key : String) (hint : VisualHint)
    (sect : String) (value : PyVal) : IxItem × Except PyErr OfAttr :=
  let attr := mkAttr key AttrType.TYPE_LONG hint sect
  match pyInt value with
  | Except.error e => (pushAttr item attr, Except.error e)
  | Except.ok n =>
    let attr := withCall attr (SetterCall.set_long (PyNum.ofInt n))
    (pushAttr item attr, Except.ok attr)

/-- The single-value double branch shape (`percentage`, `distance`,
`angle`, `scale`, `subframe`, `l`, `pixel`, `subpixel`): create a
TYPE_DOUBLE attribute, then `set_double(float(value))`. -/
def doubleBranch (item : IxItem) (key : String) (hint : VisualHint)
    (sect : String) (value : PyVal) : IxItem × Except PyErr OfAttr :=
  let attr := mkAttr key AttrType.TYPE_DOUBLE hint sect
  match pyFloatChk value with
  | Except.error e => (pushAttr item attr, Except.error e)
  | Except.ok f =>
    let attr := withCall attr (SetterCall.set_double f none)
    (pushAttr item attr, Except.ok attr)

/-- The `double` branch of the source: create a TYPE_DOUBLE attribute and
then call `attr.set_long(float(value))` (this is what the code does; every
other double-hinted branch calls `set_double`). -/
def doubleLongBranch (item : IxItem) (key : String) (sect : String)
    (value : PyVal) : IxItem × Except PyErr OfAttr :=
  let attr := mkAttr key AttrType.TYPE_DOUBLE VisualHint.VISUAL_HINT_DEFAULT
    sect
  match pyFloatChk value with
  | Except.error e => (pushAttr item attr, Except.error e)
  | Except.ok f =>
    let attr := withCall attr (SetterCall.set_long (PyNum.ofFloat f))
    (pushAttr item attr, Except.ok attr)

/-- The sequence `set_double(float(value[i]), i)` for the given indices,
as in the `la`/`rgb`/`rgba` branches; the first indexing or conversion
error propagates, with the attribute already added. -/
def setDoubles (item : IxItem) (value : PyVal) :
    OfAttr → List Nat → IxItem × Except PyErr OfAttr
  | attr, [] => (pushAttr item attr, Except.ok attr)
  | attr, i :: is =>
    match pyIndex value i with
    | Except.error e => (pushAttr item attr, Except.error e)
    | Except.ok vi =>
      match pyFloatChk vi with
      | Except.error e => (pushAttr item attr, Except.error e)
      | Except.ok f =>
        setDoubles item value
          (withCall attr (SetterCall.set_double f (some i))) is

/-- The `la`/`rgb`/`rgba` branch shape: a TYPE_DOUBLE attribute,
`set_value_count(n)`, then an indexed `set_double` per component. -/
def multiDoubleBranch (item : IxItem) (key : String) (hint : VisualHint)
    (sect : String) (value : PyVal) (n : Nat) :
    IxItem × Except PyErr OfAttr :=
  let attr := withCall (mkAttr key AttrType.TYPE_DOUBLE hint sect)
    (SetterCall.set_value_count n)
  setDoubles item value attr (List.range n)

/-- The `filein`/`fileout` branch shape: a TYPE_FILE attribute, then
`set_string(value)` with the raw value. -/
def fileBranch (item : IxItem) (key : String) (hint : VisualHint)
    (sect : String) (value : PyVal) : IxItem × Except PyErr OfAttr :=
  let attr := withCall (mkAttr key AttrType.TYPE_FILE hint sect)
    (SetterCall.set_string value)
  (pushAttr item attr, Except.ok attr)

/-- Embedding of `libClarisse.set_custom_attr(item, section, key, value,
attr_type)`: lower-case the type name, dispatch over the known type names
in source order, and raise TypeError on anything else.  The result is the
item after any `add_attribute` mutation together with the returned
attribute or the propagated error. -/
def set_custom_attr (item : IxItem) (sect key : String) (value : PyVal)
    (attr_type : String) : IxItem × Except PyErr OfAttr :=
  let t := pyLower attr_type
  if t = "bool" ∨ t = "boolean" then
    let attr := mkAttr key AttrType.TYPE_BOOL VisualHint.VISUAL_HINT_DEFAULT
      sect
    let s := pyStr value
    let attr :=
      if boolWords.contains (pyUpper s) then
        withCall attr (SetterCall.set_bool true)
      else withCall attr (SetterCall.set_bool false)
    (pushAttr item attr, Except.ok attr)
  else if t = "long" ∨ t = "integer" then
    longBranch item key VisualHint.VISUAL_HINT_DEFAULT sect value
  else if t = "double" then
    doubleLongBranch item key sect value
  else if t = "string" then
    let attr := withCall
      (mkAttr key AttrType.TYPE_STRING VisualHint.VISUAL_HINT_DEFAULT sect)
      (SetterCall.set_string (PyVal.VStr (pyStr value)))
    (pushAttr item attr, Except.ok attr)
  else if t = "reference" then
    let attr := withCall
      (mkAttr key AttrType.TYPE_REFERENCE VisualHint.VISUAL_HINT_DEFAULT
        sect)
      (SetterCall.set_object value)
    (pushAttr item attr, Except.ok attr)
  else if t = "percentage" then
    doubleBranch item key VisualHint.VISUAL_HINT_PERCENTAGE sect value
  else if t = "distance" then
    doubleBranch item key VisualHint.VISUAL_HINT_DISTANCE sect value
  else if t = "angle" then
    doubleBranch item key VisualHint.VISUAL_HINT_ANGLE sect value
  else if t = "scale" then
    doubleBranch item key VisualHint.VISUAL_HINT_SCALE sect value
  else if t = "frame" then
    longBranch item key VisualHint.VISUAL_HINT_FRAME sect value
  else if t = "subframe" then
    doubleBranch item key VisualHint.VISUAL_HINT_SUBFRAME sect value
  else if t = "l" then
    doubleBranch item key VisualHint.VISUAL_HINT_L sect value
  else if t = "la" then
    multiDoubleBranch item key VisualHint.VISUAL_HINT_LA sect value 2
  else if t = "rgb" then
    multiDoubleBranch item key VisualHint.VISUAL_HINT_RGB sect value 3
  else if t = "rgba" then
    multiDoubleBranch item key VisualHint.VISUAL_HINT_RGBA sect value 4
  else if t = "filein" then
    fileBranch item key VisualHint.VISUAL_HINT_FILENAME_OPEN sect value
  else if t = "fileout" then
    fileBranch item key VisualHint.VISUAL_HINT_FILENAME_SAVE sect value
  else if t = "pixel" then
    doubleBranch item key VisualHint.VISUAL_HINT_PIXEL sect value
  else if t = "subpixel" then
    doubleBranch item key VisualHint.VISUAL_HINT_SUBPIXEL sect value
  else (item, Except.error PyErr.typeError)

/-- The type names set_custom_attr recognizes, in source order. -/
def recognized_attr_types : List String :=
  ["bool", "boolean", "long", "integer", "double", "string", "reference",
   "percentage", "distance", "angle", "scale", "frame", "subframe", "l",
   "la", "rgb", "rgba", "filein", "fileout", "pixel", "subpixel"]

/-- Is a (lower-cased) type name one of the recognized ones? -/
def recognized (t : String) : Bool := recognized_attr_types.contains t

theorem pair_adds_one (item : IxItem) (a0 : OfAttr) :
    ∃ a, ((pushAttr item a0, Except.ok a0) :
          IxItem × Except PyErr OfAttr).1.attrs = item.attrs ++ [a] ∧
      ∀ b, ((pushAttr item a0, Except.ok a0) :
          IxItem × Except PyErr OfAttr).2 = Except.ok b → b = a := by
  refine ⟨a0, by simp [pushAttr], ?_⟩
  intro b hb
  simp at hb
  exact hb.symm

theorem longBranch_adds_one (item : IxItem) (key : String)
    (hint : VisualHint) (sect : String) (value : PyVal) :
    ∃ a, (longBranch item key hint sect value).1.attrs =
        item.attrs ++ [a] ∧
      ∀ b, (longBranch item key hint sect value).2 = Except.ok b → b = a := by
  cases h : pyInt value with
  | error e =>
    refine ⟨mkAttr key AttrType.TYPE_LONG hint sect, ?_, ?_⟩
    · simp [longBranch, h, pushAttr]
    · intro b hb
      simp [longBranch, h] at hb
  | ok n =>
    refine ⟨withCall (mkAttr key AttrType.TYPE_LONG hint sect)
      (SetterCall.set_long (PyNum.ofInt n)), ?_, ?_⟩
    · simp [longBranch, h, pushAttr]
    · intro b hb
      simp [longBranch, h] at hb
      exact hb.symm

theorem doubleBranch_adds_one (item : IxItem) (key : String)
    (hint : VisualHint) (sect : String) (value : PyVal) :
    ∃ a, (doubleBranch item key hint sect value).1.attrs =
        item.attrs ++ [a] ∧
      ∀ b, (doubleBranch item key hint sect value).2 = Except.ok b →
        b = a := by
  cases h : pyFloatChk value with
  | error e =>
    refine ⟨mkAttr key AttrType.TYPE_DOUBLE hint sect, ?_, ?_⟩
    · simp [doubleBranch, h, pushAttr]
    · intro b hb
      simp [doubleBranch, h] at hb
  | ok f =>
    refine ⟨withCall (mkAttr key AttrType.TYPE_DOUBLE hint sect)
      (SetterCall.set_double f none), ?_, ?_⟩
    · simp [doubleBranch, h, pushAttr]
    · intro b hb
      simp [doubleBranch, h] at hb
      exact hb.symm

theorem doubleLongBranch_adds_one (item : IxItem) (key : String)
    (sect : String) (value : PyVal) :
    ∃ a, (doubleLongBranch item key sect value).1.attrs =
        item.attrs ++ [a] ∧
      ∀ b, (doubleLongBranch item key sect value).2 = Except.ok b →
        b = a := by
  cases h : pyFloatChk value with
  | error e =>
    refine ⟨mkAttr key AttrType.TYPE_DOUBLE VisualHint.VISUAL_HINT_DEFAULT
      sect, ?_, ?_⟩
    · simp [doubleLongBranch, h, pushAttr]
    · intro b hb
      simp [doubleLongBranch, h] at hb
  | ok f =>
    refine ⟨withCall (mkAttr key AttrType.TYPE_DOUBLE
        VisualHint.VISUAL_HINT_DEFAULT sect)
      (SetterCall.set_long (PyNum.ofFloat f)), ?_, ?_⟩
    · simp [doubleLongBranch, h, pushAttr]
    · intro b hb
      simp [doubleLongBranch, h] at hb
      exact hb.symm

theorem setDoubles_adds_one (item : IxItem) (value : PyVal) :
    ∀ (idxs : List Nat) (attr : OfAttr),
      ∃ a, (setDoubles item value attr idxs).1.attrs =
          item.attrs ++ [a] ∧
        ∀ b, (setDoubles item value attr idxs).2 = Except.ok b → b = a := by
  intro idxs
  induction idxs with
  | nil =>
    intro attr
    refine ⟨attr, by simp [setDoubles, pushAttr], ?_⟩
    intro b hb
    simp [setDoubles] at hb
    exact hb.symm
  | cons i is ih =>
    intro attr
    cases h1 : pyIndex value i with
    | error e =>
      refine ⟨attr, by simp [setDoubles, h1, pushAttr], ?_⟩
      intro b hb
      simp [setDoubles, h1] at hb
    | ok vi =>
      cases h2 : pyFloatChk vi with
      | error e =>
        refine ⟨attr, by simp [setDoubles, h1, h2, pushAttr], ?_⟩
        intro b hb
        simp [setDoubles, h1, h2] at hb
      | ok f =>
        obtain ⟨a, ha1, ha2⟩ :=
          ih (withCall attr (SetterCall.set_double f (some i)))
        refine ⟨a, ?_, ?_⟩
        · rw [show setDoubles item value attr (i :: is) =
            setDoubles item value
              (withCall attr (SetterCall.set_double f (some i))) is from by
            simp [setDoubles, h1, h2]]
          exact ha1
        · intro b hb
          apply ha2
          rw [show setDoubles item value attr (i :: is) =
            setDoubles item value
              (withCall attr (SetterCall.set_double f (some i))) is from by
            simp [setDoubles, h1, h2]] at hb
          exact hb

theorem multiDoubleBranch_adds_one (item : IxItem) (key : String)
    (hint : VisualHint) (sect : String) (value : PyVal) (n : Nat) :
    ∃ a, (multiDoubleBranch item key hint sect value n).1.attrs =
        item.attrs ++ [a] ∧
      ∀ b, (multiDoubleBranch item key hint sect value n).2 = Except.ok b →
        b = a := by
  unfold multiDoubleBranch
  exact setDoubles_adds_one item value (List.range n) _

theorem fileBranch_adds_one (item : IxItem) (key : String)
    (hint : VisualHint) (sect : String) (value : PyVal) :
    ∃ a, (fileBranch item key hint sect value).1.attrs =
        item.attrs ++ [a] ∧
      ∀ b, (fileBranch item key hint sect value).2 = Except.ok b →
        b = a := by
  unfold fileBranch
  exact pair_adds_one item _

theorem recognized_iff (t : String) :
    recognized t = true ↔
      t = "bool" ∨ t = "boolean" ∨ t = "long" ∨ t = "integer" ∨
      t = "double" ∨ t = "string" ∨ t = "reference" ∨ t = "percentage" ∨
      t = "distance" ∨ t = "angle" ∨ t = "scale" ∨ t = "frame" ∨
      t = "subframe" ∨ t = "l" ∨ t = "la" ∨ t = "rgb" ∨ t = "rgba" ∨
      t = "filein" ∨ t = "fileout" ∨ t = "pixel" ∨ t = "subpixel" := by
  simp [recognized, recognized_attr_types]

theorem recognized_false_parts (t : String) (h : recognized t = false) :
    t ≠ "bool" ∧ t ≠ "boolean" ∧ t ≠ "long" ∧ t ≠ "integer" ∧
    t ≠ "double" ∧ t ≠ "string" ∧ t ≠ "reference" ∧ t ≠ "percentage" ∧
    t ≠ "distance" ∧ t ≠ "angle" ∧ t ≠ "scale" ∧ t ≠ "frame" ∧
    t ≠ "subframe" ∧ t ≠ "l" ∧ t ≠ "la" ∧ t ≠ "rgb" ∧ t ≠ "rgba" ∧
    t ≠ "filein" ∧ t ≠ "fileout" ∧ t ≠ "pixel" ∧ t ≠ "subpixel" := by
  have h2 : ¬ (recognized t = true) := by simp [h]
  rw [recognized_iff] at h2
  push_neg at h2
  exact h2

set_option maxHeartbeats 1000000 in
/-- C1 counterexample: `long` is a recognized type name, yet with the
non-numeric value `abc` the call does not return the attribute object:
the `int()` conversion error propagates (after the attribute was already
added to the item). -/
theorem C1_counterexample :
    recognized (pyLower "long") = true ∧
    (set_custom_attr ⟨[]⟩ "meta" "k" (PyVal.VStr "abc") "long").2 =
      Except.error PyErr.valueError ∧
    (set_custom_attr ⟨[]⟩ "meta" "k" (PyVal.VStr "abc") "long").1.attrs.length
      = 1 := by
  refine ⟨by decide, rfl, rfl⟩

set_option maxHeartbeats 1000000 in
/-- C1 (amended): if the lower-cased type name is not recognized, a
TypeError is raised and the item is unchanged; if it is recognized,
exactly one attribute is added to the item, and whenever the call returns
normally the returned object is that attribute (a value-conversion failure
inside a recognized branch propagates instead, with the attribute still
added). -/
theorem C1_set_custom_attr_dispatch (item : IxItem) (sect key : String)
    (value : PyVal) (attr_type : String) :
    (recognized (pyLower attr_type) = false →
      set_custom_attr item sect key value attr_type =
        (item, Except.error PyErr.typeError)) ∧
    (recognized (pyLower attr_type) = true →
      ∃ a, (set_custom_attr item sect key value attr_type).1.attrs =
          item.attrs ++ [a] ∧
        ∀ b, (set_custom_attr item sect key value attr_type).2 =
            Except.ok b → b = a) := by
  constructor
  · intro hrec
    obtain ⟨n1, n2, n3, n4, n5, n6, n7, n8, n9, n10, n11, n12, n13, n14,
      n15, n16, n17, n18, n19, n20, n21⟩ := recognized_false_parts _ hrec
    simp only [set_custom_attr]
    rw [if_neg (fun hc => hc.elim n1 n2), if_neg (fun hc => hc.elim n3 n4),
      if_neg n5, if_neg n6, if_neg n7, if_neg n8, if_neg n9, if_neg n10,
      if_neg n11, if_neg n12, if_neg n13, if_neg n14, if_neg n15,
      if_neg n16, if_neg n17, if_neg n18, if_neg n19, if_neg n20,
      if_neg n21]
  · intro hrec
    rcases (recognized_iff _).mp hrec with
      h | h | h | h | h | h | h | h | h | h | h | h | h | h | h | h | h |
      h | h | h | h <;>
      rw [show set_custom_attr item sect key value attr_type = _ from by
        simp [set_custom_attr, h]
        try rfl] <;>
      first
        | exact pair_adds_one item _
        | apply longBranch_adds_one
        | apply doubleLongBranch_adds_one
        | apply doubleBranch_adds_one
        | apply multiDoubleBranch_adds_one

theorem C1_witness :
    set_custom_attr ⟨[]⟩ "meta" "k" (PyVal.VStr "v") "zzz" =
      (⟨[]⟩, Except.error PyErr.typeError) ∧
    ∃ a, (set_custom_attr ⟨[]⟩ "meta" "k" (PyVal.VStr "v") "string").1.attrs
        = [] ++ [a] := by
  constructor
  · exact (C1_set_custom_attr_dispatch ⟨[]⟩ "meta" "k" (PyVal.VStr "v")
      "zzz").1 (by decide)
  · obtain ⟨a, ha, _⟩ := (C1_set_custom_attr_dispatch ⟨[]⟩ "meta" "k"
      (PyVal.VStr "v") "string").2 (by decide)
    exact ⟨a, ha⟩

set_option maxHeartbeats 1000000 in
/-- C6: on the recognized type name `double` the code creates the
TYPE_DOUBLE attribute and then sets its value with
`set_long(float(value))`, not with `set_double` as the claim states for
every double-typed attribute. -/
theorem C6_double_branch_calls_set_long :
    (set_custom_attr ⟨[]⟩ "meta" "k" (PyVal.VInt 3) "double").2 =
      Except.ok (⟨"k", AttrType.TYPE_DOUBLE, Container.CONTAINER_SINGLE,
        VisualHint.VISUAL_HINT_DEFAULT, "meta",
        [SetterCall.set_long (PyNum.ofFloat (PyVal.VInt 3))]⟩ : OfAttr) :=
  rfl
